import Mathlib

/-!
Verification of the cursor-based pagination and content-aggregation engine of
the T4L edge functions (Supabase/Deno, TypeScript).  Each definition below is a
shallow embedding of one code path of the repository; endpoint names are kept
as namespaces (ClusterStories, ArticlePreviews, TeamArticles, Injuries,
ClusterInfos, StoryLines, StoryDetail, StoryLineView, ClusterSummary,
TeamView, ArticleDetail).  Timestamps and row ids are modelled as natural
numbers (the code compares their canonical string/number forms, which order
the same way); nullable columns are Option values; a fetch outcome is an
Except value whose error side carries the PostgREST error object.
-/

/-! ## Cursor codec (ClusterStories endpoint)

The ClusterStories handler encodes the next cursor as the template string
updated_at ++ underscore ++ id and decodes an incoming cursor with
cursor.split on the underscore character, rejecting the request unless the
split yields exactly two parts.  Strings are modelled as lists of
characters; splitOnChar mirrors JavaScript String.prototype.split with a
single-character separator. -/

def splitOnChar (d : Char) : List Char → List (List Char)
  | [] => [[]]
  | c :: cs =>
    if c = d then [] :: splitOnChar d cs
    else
      match splitOnChar d cs with
      | [] => [[c]]
      | p :: ps => (c :: p) :: ps

/-- Encoding of the composite cursor, from part_000 line 235:
nextCursor is the template string with updated_at, an underscore and id. -/
def ClusterStories.encodeCursor (updated_at : List Char) (id : List Char) : List Char :=
  updated_at ++ '_' :: id

/-- Decoding of the composite cursor, from part_000 lines 129-140: split on
the underscore and fail (HTTP 400) unless there are exactly two parts. -/
def ClusterStories.decodeCursor (cursor : List Char) : Option (List Char × List Char) :=
  match splitOnChar '_' cursor with
  | [t, i] => some (t, i)
  | _ => none

theorem splitOnChar_ne_nil (d : Char) (l : List Char) : splitOnChar d l ≠ [] := by
  induction l with
  | nil => simp [splitOnChar]
  | cons c cs ih =>
    simp only [splitOnChar]
    by_cases h : c = d
    · simp [h]
    · simp only [if_neg h]
      cases hs : splitOnChar d cs with
      | nil => simp
      | cons p ps => simp

theorem splitOnChar_of_not_mem (d : Char) (l : List Char) (h : d ∉ l) :
    splitOnChar d l = [l] := by
  induction l with
  | nil => simp [splitOnChar]
  | cons c cs ih =>
    have hcd : c ≠ d := fun hc => h (hc ▸ List.mem_cons_self c cs)
    have hcs : d ∉ cs := fun hm => h (List.mem_cons_of_mem c hm)
    simp only [splitOnChar, if_neg hcd, ih hcs]

theorem splitOnChar_append (d : Char) (a b : List Char) (ha : d ∉ a) (hb : d ∉ b) :
    splitOnChar d (a ++ d :: b) = [a, b] := by
  induction a with
  | nil =>
    simp [splitOnChar, splitOnChar_of_not_mem d b hb]
  | cons c cs ih =>
    have hcd : c ≠ d := fun hc => ha (hc ▸ List.mem_cons_self c cs)
    have hcs : d ∉ cs := fun hm => ha (List.mem_cons_of_mem c hm)
    simp only [List.cons_append, splitOnChar, if_neg hcd, List.append_eq, ih hcs]

/-- C5: for every two-field sort-key value whose canonical string forms do not
contain the underscore delimiter, decoding the encoded cursor returns the
original pair exactly: decode (encode k) = k. -/
theorem clusterStories_cursor_roundtrip (updated_at id : List Char)
    (hu : '_' ∉ updated_at) (hi : '_' ∉ id) :
    ClusterStories.decodeCursor (ClusterStories.encodeCursor updated_at id)
      = some (updated_at, id) := by
  unfold ClusterStories.decodeCursor ClusterStories.encodeCursor
  rw [splitOnChar_append '_' updated_at id hu hi]

/-- Concrete instance of the C5 round-trip at the key
(updated_at 2024-05-01, id 42). -/
theorem clusterStories_cursor_roundtrip_witness :
    '_' ∉ ['2', '0', '2', '4', '-', '0', '5', '-', '0', '1'] ∧
    '_' ∉ ['4', '2'] ∧
    ClusterStories.decodeCursor
      (ClusterStories.encodeCursor ['2', '0', '2', '4', '-', '0', '5', '-', '0', '1'] ['4', '2'])
      = some (['2', '0', '2', '4', '-', '0', '5', '-', '0', '1'], ['4', '2']) :=
  ⟨by decide, by decide,
    clusterStories_cursor_roundtrip _ _ (by decide) (by decide)⟩

/-! ## Keyset pagination (ClusterStories endpoint)

A ClusterStories page is the first limit rows of the store listing; when a
cursor is given the rows are first filtered with the PostgREST disjunction
updated_at.lt.cursorTimestamp, and(updated_at.eq.cursorTimestamp,
id.lt.cursorId) from part_000 line 146.  The next cursor is the last row's
key exactly when the page holds limit rows (part_000 lines 231-236).  The
store is modelled as whatever listing the query returns: the query orders
only by updated_at descending (part_000 line 123) with no id tie-break, so
every listing that is non-increasing in updated_at is a possible execution
(orderedByUpdatedAtB below); strict order in the full two-field key
(sortedDescB below) is a strictly stronger property of a listing, and the
exactly-once walk theorem holds under it but fails on a tie-order listing
the code permits. -/

structure SortKey where
  updated_at : Nat
  id : Nat
deriving DecidableEq, Repr

/-- Strict descending precedence of the sort key: x comes strictly before y in
the (updated_at desc, id desc) listing. -/
def SortKey.before (x y : SortKey) : Prop :=
  y.updated_at < x.updated_at ∨ (x.updated_at = y.updated_at ∧ y.id < x.id)

instance (x y : SortKey) : Decidable (SortKey.before x y) := by
  unfold SortKey.before; infer_instance

/-- The cursor filter of part_000 line 146, as a predicate on a row key. -/
def ClusterStories.cursorPred (cursor : SortKey) (r : SortKey) : Bool :=
  decide (r.updated_at < cursor.updated_at) ||
    (decide (r.updated_at = cursor.updated_at) && decide (r.id < cursor.id))

/-- One bounded fetch of the ClusterStories query: apply the cursor filter
when a cursor is present, then take the first limit rows of the store
listing, whatever order the store chose for it. -/
def ClusterStories.fetchPage (db : List SortKey) (cursor : Option SortKey) (limit : Nat) :
    List SortKey :=
  (match cursor with
   | none => db
   | some c => db.filter (ClusterStories.cursorPred c)).take limit

/-- Next-cursor computation of part_000 lines 231-236: the last fetched row's
key exactly when the page holds limit rows. -/
def ClusterStories.nextCursor (page : List SortKey) (limit : Nat) : Option SortKey :=
  if page.length = limit then page.getLast? else none


/-- A client walking the endpoint: request a page, and keep requesting with
the returned cursor for as long as a next cursor is returned.  Fuel bounds
the recursion. -/
def ClusterStories.walk (db : List SortKey) (limit : Nat) :
    Nat → Option SortKey → List SortKey
  | 0, _ => []
  | fuel + 1, cursor =>
    let page := ClusterStories.fetchPage db cursor limit
    let next := ClusterStories.nextCursor page limit
    if next.isSome then page ++ ClusterStories.walk db limit fuel next
    else page

theorem ClusterStories.walk_succ (db : List SortKey) (limit fuel : Nat)
    (cursor : Option SortKey) :
    ClusterStories.walk db limit (fuel + 1) cursor =
      if (ClusterStories.nextCursor (ClusterStories.fetchPage db cursor limit) limit).isSome
      then ClusterStories.fetchPage db cursor limit ++
        ClusterStories.walk db limit fuel
          (ClusterStories.nextCursor (ClusterStories.fetchPage db cursor limit) limit)
      else ClusterStories.fetchPage db cursor limit := rfl

/-- Boolean check that a store listing is strictly descending in the two-field
sort key (adjacent comparison). -/
def sortedDescB : List SortKey → Bool
  | [] => true
  | [_] => true
  | x :: y :: rest => decide (SortKey.before x y) && sortedDescB (y :: rest)

/-- Boolean check that a store listing is non-increasing in updated_at alone:
this, and nothing more, is what the order clause of part_000 line 123
(order by updated_at descending, no id tie-break) guarantees about the
listing a fetch returns. -/
def orderedByUpdatedAtB : List SortKey → Bool
  | [] => true
  | [_] => true
  | x :: y :: rest =>
    decide (y.updated_at ≤ x.updated_at) && orderedByUpdatedAtB (y :: rest)

theorem SortKey.before_trans {x y z : SortKey} (h1 : SortKey.before x y)
    (h2 : SortKey.before y z) : SortKey.before x z := by
  rcases h1 with h1 | ⟨h1e, h1i⟩ <;> rcases h2 with h2 | ⟨h2e, h2i⟩ <;>
    unfold SortKey.before <;> omega

theorem sortedDescB_pairwise (l : List SortKey) (h : sortedDescB l = true) :
    l.Pairwise SortKey.before := by
  induction l with
  | nil => exact List.Pairwise.nil
  | cons x xs ih =>
    cases xs with
    | nil => exact List.pairwise_singleton _ _
    | cons y ys =>
      simp only [sortedDescB, Bool.and_eq_true, decide_eq_true_eq] at h
      have htail := ih h.2
      refine List.Pairwise.cons ?_ htail
      intro z hz
      rcases List.mem_cons.mp hz with hzy | hzys
      · exact hzy ▸ h.1
      · exact SortKey.before_trans h.1 ((List.pairwise_cons.mp htail).1 z hzys)

theorem cursorPred_eq_before (c r : SortKey) :
    ClusterStories.cursorPred c r = decide (SortKey.before c r) := by
  unfold ClusterStories.cursorPred SortKey.before
  by_cases h1 : r.updated_at < c.updated_at <;>
    by_cases h2 : c.updated_at = r.updated_at <;>
      by_cases h3 : r.id < c.id <;> simp [h1, h2, h3, eq_comm]

theorem SortKey.before_asymm {x y : SortKey} (h : SortKey.before x y) :
    ¬ SortKey.before y x := by
  rcases h with h | ⟨he, hi⟩ <;> unfold SortKey.before <;> omega

theorem SortKey.before_irrefl (x : SortKey) : ¬ SortKey.before x x := by
  unfold SortKey.before; omega

/-- On a strictly descending store, filtering with the cursor of row c keeps
exactly the rows listed after c. -/
theorem filter_cursorPred_of_sorted (front rest : List SortKey) (c : SortKey)
    (hp : (front ++ c :: rest).Pairwise SortKey.before) :
    (front ++ c :: rest).filter (ClusterStories.cursorPred c) = rest := by
  rw [List.pairwise_append] at hp
  obtain ⟨hfront, hcrest, hcross⟩ := hp
  rw [List.pairwise_cons] at hcrest
  rw [List.filter_append]
  have h1 : front.filter (ClusterStories.cursorPred c) = [] := by
    rw [List.filter_eq_nil_iff]
    intro a ha
    rw [cursorPred_eq_before]
    simp only [decide_eq_true_eq]
    exact SortKey.before_asymm (hcross a ha c (List.mem_cons_self c rest))
  have h2 : (c :: rest).filter (ClusterStories.cursorPred c) = rest := by
    simp only [List.filter_cons]
    rw [cursorPred_eq_before]
    simp only [decide_eq_true_eq, SortKey.before_irrefl c, if_false]
    rw [List.filter_eq_self]
    intro a ha
    rw [cursorPred_eq_before]
    simp only [decide_eq_true_eq]
    exact hcrest.1 a ha
  rw [h1, h2, List.nil_append]

/-- Walking from the cursor of row c returns exactly the rows after c. -/
theorem ClusterStories.walk_suffix (db : List SortKey) (limit : Nat)
    (hdb : db.Pairwise SortKey.before) (hl : 1 ≤ limit) :
    ∀ fuel front c rest, db = front ++ c :: rest → rest.length + 1 ≤ fuel →
      ClusterStories.walk db limit fuel (some c) = rest := by
  intro fuel
  induction fuel with
  | zero => intro front c rest hsplit hfuel; omega
  | succ fuel ih =>
    intro front c rest hsplit hfuel
    have hfilter : db.filter (ClusterStories.cursorPred c) = rest := by
      rw [hsplit]; exact filter_cursorPred_of_sorted front rest c (hsplit ▸ hdb)
    have hpage : ClusterStories.fetchPage db (some c) limit = rest.take limit := by
      simp only [ClusterStories.fetchPage, hfilter]
    rw [ClusterStories.walk_succ, hpage]
    by_cases hlen : rest.length ≤ limit
    · rw [List.take_of_length_le hlen]
      by_cases hfull : rest.length = limit
      · rcases List.eq_nil_or_concat rest with hnil | ⟨pre, last, hconcat⟩
        · exfalso; rw [hnil] at hfull; simp at hfull; omega
        · have hnc : ClusterStories.nextCursor rest limit = some last := by
            rw [ClusterStories.nextCursor, if_pos hfull, hconcat, List.concat_eq_append,
              List.getLast?_concat]
          rw [hnc]
          rw [if_pos (show (some last).isSome = true from rfl)]
          have hrec : ClusterStories.walk db limit fuel (some last) = [] := by
            refine ih (front ++ c :: pre) last [] ?_ ?_
            · rw [hsplit, hconcat]; simp
            · simp only [List.length_nil]; omega
          rw [hrec, List.append_nil]
      · have hnc : ClusterStories.nextCursor rest limit = none := by
          rw [ClusterStories.nextCursor, if_neg hfull]
        rw [hnc]
        rw [if_neg (by simp)]
    · push_neg at hlen
      have htake : (rest.take limit).length = limit := by
        rw [List.length_take]; omega
      rcases List.eq_nil_or_concat (rest.take limit) with hnil | ⟨pre, last, hconcat⟩
      · exfalso; rw [hnil] at htake; simp at htake; omega
      · have hnc : ClusterStories.nextCursor (rest.take limit) limit = some last := by
          rw [ClusterStories.nextCursor, if_pos htake, hconcat, List.concat_eq_append,
            List.getLast?_concat]
        rw [hnc]
        rw [if_pos (show (some last).isSome = true from rfl)]
        have hrestsplit : rest = pre ++ last :: rest.drop limit := by
          have h := List.take_append_drop limit rest
          rw [hconcat, List.concat_eq_append, List.append_assoc, List.singleton_append] at h
          exact h.symm
        have hsplit2 : db = (front ++ c :: pre) ++ last :: rest.drop limit := by
          rw [hsplit]
          conv_lhs => rw [hrestsplit]
          simp
        have hrec : ClusterStories.walk db limit fuel (some last) = rest.drop limit := by
          refine ih (front ++ c :: pre) last (rest.drop limit) hsplit2 ?_
          rw [List.length_drop]; omega
        rw [hrec]
        exact List.take_append_drop limit rest

/-- C1 (amended): a ClusterStories page with a cursor returns exactly the
first limit rows of the store listing satisfying the disjunction
updated_at < cursorA or (updated_at = cursorA and id < cursorB), and a client
walking the endpoint with any limit of at least 1 receives every row exactly
once, in sort-key order, whenever the store listing is strictly descending in
the full two-field key.  The query itself, however, orders only by updated_at
(part_000 line 123): on the listing (2,5), (2,8), (1,7) — a permitted
execution of that order clause with a tie at updated_at 2 — the walk with
limit 1 returns (2,5), (1,7) and skips the row (2,8) forever, because the
cursor filter of (2,5) excludes it; so even ClusterStories only has the
exactly-once guarantee under an id tie-break its query does not request. -/
theorem clusterStories_keyset_pagination_exact (db : List SortKey) (limit : Nat)
    (hs : sortedDescB db = true) (hl : 1 ≤ limit) :
    ((∀ c, ClusterStories.fetchPage db (some c) limit
        = (db.filter (ClusterStories.cursorPred c)).take limit) ∧
      ClusterStories.walk db limit (db.length + 1) none = db) ∧
    (orderedByUpdatedAtB [⟨2, 5⟩, ⟨2, 8⟩, ⟨1, 7⟩] = true ∧
      sortedDescB [⟨2, 5⟩, ⟨2, 8⟩, ⟨1, 7⟩] = false ∧
      ClusterStories.walk [⟨2, 5⟩, ⟨2, 8⟩, ⟨1, 7⟩] 1 4 none = [⟨2, 5⟩, ⟨1, 7⟩] ∧
      (⟨2, 8⟩ : SortKey) ∈ [(⟨2, 5⟩ : SortKey), ⟨2, 8⟩, ⟨1, 7⟩] ∧
      (⟨2, 8⟩ : SortKey) ∉ ClusterStories.walk [⟨2, 5⟩, ⟨2, 8⟩, ⟨1, 7⟩] 1 4 none) := by
  have hdb := sortedDescB_pairwise db hs
  refine ⟨⟨fun c => rfl, ?_⟩, by decide⟩
  have hpage : ClusterStories.fetchPage db none limit = db.take limit := rfl
  rw [ClusterStories.walk_succ, hpage]
  by_cases hlen : db.length ≤ limit
  · rw [List.take_of_length_le hlen]
    by_cases hfull : db.length = limit
    · rcases List.eq_nil_or_concat db with hnil | ⟨pre, last, hconcat⟩
      · exfalso; rw [hnil] at hfull; simp at hfull; omega
      · have hnc : ClusterStories.nextCursor db limit = some last := by
          rw [ClusterStories.nextCursor, if_pos hfull, hconcat, List.concat_eq_append,
            List.getLast?_concat]
        rw [hnc]
        rw [if_pos (show (some last).isSome = true from rfl)]
        have hrec : ClusterStories.walk db limit db.length (some last) = [] := by
          refine ClusterStories.walk_suffix db limit hdb hl db.length pre last [] ?_ ?_
          · rw [hconcat]; simp
          · simp only [List.length_nil]; omega
        rw [hrec, List.append_nil]
    · have hnc : ClusterStories.nextCursor db limit = none := by
        rw [ClusterStories.nextCursor, if_neg hfull]
      rw [hnc]
      rw [if_neg (by simp)]
  · push_neg at hlen
    have htake : (db.take limit).length = limit := by
      rw [List.length_take]; omega
    rcases List.eq_nil_or_concat (db.take limit) with hnil | ⟨pre, last, hconcat⟩
    · exfalso; rw [hnil] at htake; simp at htake; omega
    · have hnc : ClusterStories.nextCursor (db.take limit) limit = some last := by
        rw [ClusterStories.nextCursor, if_pos htake, hconcat, List.concat_eq_append,
          List.getLast?_concat]
      rw [hnc]
      rw [if_pos (show (some last).isSome = true from rfl)]
      have hsplit2 : db = pre ++ last :: db.drop limit := by
        conv_lhs => rw [← List.take_append_drop limit db]
        rw [hconcat, List.concat_eq_append, List.append_assoc, List.singleton_append]
      have hrec : ClusterStories.walk db limit db.length (some last) = db.drop limit := by
        refine ClusterStories.walk_suffix db limit hdb hl db.length pre last
          (db.drop limit) hsplit2 ?_
        rw [List.length_drop]; omega
      rw [hrec]
      exact List.take_append_drop limit db

/-- Concrete instance of the C1 walk on a four-row store listing in strict
two-field order (tie on updated_at broken by id), limit 2: the client
receives all four rows exactly once, in sort-key order; on the tie-order
listing the walk skips a row. -/
theorem clusterStories_keyset_pagination_witness :
    sortedDescB [⟨3, 9⟩, ⟨2, 8⟩, ⟨2, 5⟩, ⟨1, 7⟩] = true ∧ 1 ≤ 2 ∧
    (((∀ c, ClusterStories.fetchPage [⟨3, 9⟩, ⟨2, 8⟩, ⟨2, 5⟩, ⟨1, 7⟩] (some c) 2
        = (([⟨3, 9⟩, ⟨2, 8⟩, ⟨2, 5⟩, ⟨1, 7⟩] : List SortKey).filter
            (ClusterStories.cursorPred c)).take 2) ∧
      ClusterStories.walk [⟨3, 9⟩, ⟨2, 8⟩, ⟨2, 5⟩, ⟨1, 7⟩] 2 5 none
        = [⟨3, 9⟩, ⟨2, 8⟩, ⟨2, 5⟩, ⟨1, 7⟩]) ∧
    (orderedByUpdatedAtB [⟨2, 5⟩, ⟨2, 8⟩, ⟨1, 7⟩] = true ∧
      sortedDescB [⟨2, 5⟩, ⟨2, 8⟩, ⟨1, 7⟩] = false ∧
      ClusterStories.walk [⟨2, 5⟩, ⟨2, 8⟩, ⟨1, 7⟩] 1 4 none = [⟨2, 5⟩, ⟨1, 7⟩] ∧
      (⟨2, 8⟩ : SortKey) ∈ [(⟨2, 5⟩ : SortKey), ⟨2, 8⟩, ⟨1, 7⟩] ∧
      (⟨2, 8⟩ : SortKey) ∉ ClusterStories.walk [⟨2, 5⟩, ⟨2, 8⟩, ⟨1, 7⟩] 1 4 none)) :=
  ⟨by decide, by decide,
    clusterStories_keyset_pagination_exact [⟨3, 9⟩, ⟨2, 8⟩, ⟨2, 5⟩, ⟨1, 7⟩] 2
      (by decide) (by decide)⟩

/-! ## Pagination of the articlePreviews / teamArticles family

The original articlePreviews handler (articlePreviews/index.ts) and its
updated variant (second document of part_000) order by the two-field key
(SourceArticle.created_at desc, id desc) but filter a cursor page with the
single condition id < cursor (lines 114-117 resp. 391-402), and use the last
row's id as the next cursor when the page is full (lines 150-159). -/

structure APRow where
  created_at : Nat
  id : Nat
deriving DecidableEq, Repr

/-- Adjacent strict-descending check for the (created_at desc, id desc)
listing of articlePreviews rows. -/
def apSortedDescB : List APRow → Bool
  | [] => true
  | [_] => true
  | x :: y :: rest =>
    (decide (y.created_at < x.created_at) ||
      (decide (x.created_at = y.created_at) && decide (y.id < x.id))) &&
      apSortedDescB (y :: rest)

/-- One bounded fetch of the articlePreviews query: rows ordered by
(created_at desc, id desc), filtered only by id < cursor when a cursor is
present, limited to limit rows. -/
def ArticlePreviews.fetchPage (db : List APRow) (cursor : Option Nat) (limit : Nat) :
    List APRow :=
  (match cursor with
   | none => db
   | some c => db.filter (fun r => decide (r.id < c))).take limit

/-- Next-cursor computation of articlePreviews/index.ts lines 150-159: the
last row's id exactly when the page holds limit rows. -/
def ArticlePreviews.nextCursor (typedData : List APRow) (limit : Nat) : Option Nat :=
  if typedData.length = limit then
    match typedData.getLast? with
    | some last => some last.id
    | none => none
  else none

/-- A client walking the articlePreviews endpoint page by page. -/
def ArticlePreviews.walk (db : List APRow) (limit : Nat) : Nat → Option Nat → List APRow
  | 0, _ => []
  | fuel + 1, cursor =>
    let page := ArticlePreviews.fetchPage db cursor limit
    let next := ArticlePreviews.nextCursor page limit
    if next.isSome then page ++ ArticlePreviews.walk db limit fuel next
    else page

/-- C1 counterexample: on the two-row store (created_at 2, id 3),
(created_at 1, id 5) — strictly descending in the two-field sort key — a walk
of the articlePreviews endpoint with limit 1 returns only the first row: the
id-only cursor filter id < 3 excludes the second row (id 5) even though it
sorts after the first one, so the row is skipped. -/
theorem articlePreviews_walk_skips_row :
    apSortedDescB [⟨2, 3⟩, ⟨1, 5⟩] = true ∧
    ArticlePreviews.walk [⟨2, 3⟩, ⟨1, 5⟩] 1 3 none = [⟨2, 3⟩] ∧
    (⟨1, 5⟩ : APRow) ∈ [(⟨2, 3⟩ : APRow), ⟨1, 5⟩] ∧
    (⟨1, 5⟩ : APRow) ∉ ArticlePreviews.walk [⟨2, 3⟩, ⟨1, 5⟩] 1 3 none := by
  decide

/-! ## Full-page next-cursor signal (C2) -/

/-- Mapped injury row of the injuries endpoint (first document of part_002). -/
structure MappedInjury where
  id : Nat
  playerName : Option String
  status : String
  description : String
deriving DecidableEq, Repr

/-- Next-cursor computation of the injuries endpoint (part_002 line 212): the
id of the last mapped row whenever the page is non-empty, with no comparison
against the limit. -/
def Injuries.nextCursor (mapped : List MappedInjury) : Option Nat :=
  if mapped.length > 0 then
    match mapped.getLast? with
    | some last => some last.id
    | none => none
  else none

/-- C2 counterexample: the injuries endpoint, fetching with the default limit
20, returns a single-row page and still sets nextCursor to that row's id, so
a non-empty final page shorter than the limit has a non-null nextCursor. -/
theorem injuries_nextCursor_nonNull_on_short_page :
    Injuries.nextCursor [⟨5, none, "Out", "knee"⟩] = some 5 ∧
    ([(⟨5, none, "Out", "knee"⟩ : MappedInjury)]).length ≠ 20 ∧
    Injuries.nextCursor [⟨5, none, "Out", "knee"⟩] ≠ none := by
  refine ⟨rfl, by decide, by decide⟩

/-- C2 (amended): for the articlePreviews and ClusterStories endpoints the
next cursor is non-null exactly when the fetch returned limit rows (limit at
least 1); the injuries endpoint does not satisfy this. -/
theorem nextCursor_nonNull_iff_full_page (typedData : List APRow) (page : List SortKey)
    (limit : Nat) (hl : 1 ≤ limit) :
    (ArticlePreviews.nextCursor typedData limit ≠ none ↔ typedData.length = limit) ∧
    (ClusterStories.nextCursor page limit ≠ none ↔ page.length = limit) := by
  constructor
  · unfold ArticlePreviews.nextCursor
    by_cases h : typedData.length = limit
    · rw [if_pos h]
      rcases List.eq_nil_or_concat typedData with hnil | ⟨pre, last, hconcat⟩
      · exfalso; rw [hnil] at h; simp at h; omega
      · have hlen2 : pre.length + 1 = limit := by
          rw [hconcat] at h; simpa using h
        rw [hconcat, List.concat_eq_append, List.getLast?_concat]
        simp [hlen2]
    · rw [if_neg h]; simp [h]
  · unfold ClusterStories.nextCursor
    by_cases h : page.length = limit
    · rw [if_pos h]
      rcases List.eq_nil_or_concat page with hnil | ⟨pre, last, hconcat⟩
      · exfalso; rw [hnil] at h; simp at h; omega
      · have hlen2 : pre.length + 1 = limit := by
          rw [hconcat] at h; simpa using h
        rw [hconcat, List.concat_eq_append, List.getLast?_concat]
        simp [hlen2]
    · rw [if_neg h]; simp [h]

/-- Concrete instance of the C2 full-page signal at limit 1 with a one-row
page on each endpoint. -/
theorem nextCursor_nonNull_iff_full_page_witness :
    1 ≤ 1 ∧
    ((ArticlePreviews.nextCursor [⟨2, 3⟩] 1 ≠ none ↔
        ([(⟨2, 3⟩ : APRow)]).length = 1) ∧
      (ClusterStories.nextCursor [⟨3, 9⟩] 1 ≠ none ↔
        ([(⟨3, 9⟩ : SortKey)]).length = 1)) :=
  ⟨by decide, nextCursor_nonNull_iff_full_page [⟨2, 3⟩] [⟨3, 9⟩] 1 (by decide)⟩

/-! ## Parameter validation (limit and cursor) -/

/-- Value of a digit list under the decimal reading of parseInt. -/
def digitsToNat (l : List Char) : Nat :=
  l.foldl (fun acc c => acc * 10 + (c.toNat - 48)) 0

/-- Model of the JavaScript builtin parseInt(s, 10) on the parameter shapes
these handlers receive: an optional leading minus sign followed by decimal
digits; characters after the digit prefix are ignored; the result is NaN
(modelled as none) when no leading digit is found. -/
def jsParseInt (s : List Char) : Option Int :=
  match s with
  | '-' :: rest =>
    let ds := rest.takeWhile Char.isDigit
    if ds.isEmpty then none else some (-(digitsToNat ds : Int))
  | _ =>
    let ds := s.takeWhile Char.isDigit
    if ds.isEmpty then none else some ((digitsToNat ds : Int))

/-- teamArticles limit validation (teamArticles/index.ts lines 68-77): the
parsed limit (none models NaN) is rejected only when NaN or not positive;
there is no upper bound, and the accepted value is passed to query.limit
unchanged. -/
def TeamArticles.limitOk (limit : Option Int) : Bool :=
  match limit with
  | none => false
  | some n => !(decide (n ≤ 0))

/-- teamArticles effective limit (line 68): default 25 when the parameter is
absent, parseInt of the raw parameter otherwise. -/
def TeamArticles.effectiveLimit (limitParam : Option (List Char)) : Option Int :=
  match limitParam with
  | none => some 25
  | some s => jsParseInt s

/-- ClusterStories limit validation (part_000 lines 84-93): rejected when NaN,
not positive, or above 50. -/
def ClusterStories.limitOk (limit : Option Int) : Bool :=
  match limit with
  | none => false
  | some n => !(decide (n ≤ 0) || decide (n > 50))

/-- Updated articlePreviews limit validation (part_000 lines 329-338):
rejected when NaN, not positive, or above 100. -/
def ArticlePreviewsV2.limitOk (limit : Option Int) : Bool :=
  match limit with
  | none => false
  | some n => !(decide (n ≤ 0) || decide (n > 100))

/-- C8 counterexample: the teamArticles endpoint accepts limit parameter 1000
(validation passes), so the fetch is issued with a limit far above the
100-row maximum other endpoints enforce; nothing is clamped. -/
theorem teamArticles_limit_unbounded :
    TeamArticles.effectiveLimit (some ['1', '0', '0', '0']) = some 1000 ∧
    TeamArticles.limitOk (TeamArticles.effectiveLimit (some ['1', '0', '0', '0'])) = true ∧
    ¬ ((1000 : Int) ≤ 100) := by
  decide

/-- C8 (amended): ClusterStories accepts exactly the limits in 1..50 and the
updated articlePreviews exactly 1..100 (out-of-range values are rejected with
an HTTP 400, not clamped), while teamArticles accepts every positive limit
with no upper bound; a NaN limit is rejected everywhere. -/
theorem limit_validation_per_endpoint (n : Int) :
    (TeamArticles.limitOk (some n) = true ↔ 0 < n) ∧
    (ClusterStories.limitOk (some n) = true ↔ 1 ≤ n ∧ n ≤ 50) ∧
    (ArticlePreviewsV2.limitOk (some n) = true ↔ 1 ≤ n ∧ n ≤ 100) ∧
    TeamArticles.limitOk none = false ∧
    ClusterStories.limitOk none = false ∧
    ArticlePreviewsV2.limitOk none = false := by
  refine ⟨?_, ?_, ?_, rfl, rfl, rfl⟩ <;>
    simp [TeamArticles.limitOk, ClusterStories.limitOk, ArticlePreviewsV2.limitOk] <;>
      omega

/-- Original articlePreviews cursor validation (articlePreviews/index.ts
lines 59-72): an absent cursor is accepted, a present cursor is rejected only
when parseInt yields NaN; any numeric value, negative included, passes. -/
def ArticlePreviews.cursorOk (cursorParam : Option (List Char)) : Bool :=
  match cursorParam with
  | none => true
  | some s =>
    match jsParseInt s with
    | none => false
    | some _ => true

/-- Updated articlePreviews cursor validation (part_000 lines 330-345):
rejected when NaN or negative. -/
def ArticlePreviewsV2.cursorOk (cursorParam : Option (List Char)) : Bool :=
  match cursorParam with
  | none => true
  | some s =>
    match jsParseInt s with
    | none => false
    | some n => decide (0 ≤ n)

/-- C9 counterexample: the original articlePreviews endpoint accepts the
negative cursor -5 (only isNaN is checked), although the claim requires
negative cursors to be rejected with a 400; the non-numeric cursor
not-a-number is rejected as the claim states. -/
theorem articlePreviews_accepts_negative_cursor :
    jsParseInt ['-', '5'] = some (-5) ∧
    ArticlePreviews.cursorOk (some ['-', '5']) = true ∧
    jsParseInt ['n', 'o', 't', '-', 'a', '-', 'n', 'u', 'm', 'b', 'e', 'r'] = none ∧
    ArticlePreviews.cursorOk
      (some ['n', 'o', 't', '-', 'a', '-', 'n', 'u', 'm', 'b', 'e', 'r']) = false := by
  decide

/-- C9 (amended): every endpoint of the family rejects a non-numeric cursor
with an HTTP 400; only the updated articlePreviews variant additionally
rejects negative cursors, while the original articlePreviews accepts every
numeric cursor value. -/
theorem cursor_validation_per_endpoint (s : List Char) :
    (jsParseInt s = none →
      ArticlePreviews.cursorOk (some s) = false ∧
        ArticlePreviewsV2.cursorOk (some s) = false) ∧
    (∀ n : Int, jsParseInt s = some n →
      ArticlePreviews.cursorOk (some s) = true ∧
        (ArticlePreviewsV2.cursorOk (some s) = true ↔ 0 ≤ n)) ∧
    ArticlePreviews.cursorOk none = true ∧
    ArticlePreviewsV2.cursorOk none = true := by
  refine ⟨?_, ?_, rfl, rfl⟩
  · intro h
    simp [ArticlePreviews.cursorOk, ArticlePreviewsV2.cursorOk, h]
  · intro n h
    simp [ArticlePreviews.cursorOk, ArticlePreviewsV2.cursorOk, h]

/-- Concrete instance of the C9 cursor validation at the parsed cursors -5
and 7. -/
theorem cursor_validation_per_endpoint_witness :
    jsParseInt ['-', '5'] = some (-5) ∧
    ArticlePreviewsV2.cursorOk (some ['-', '5']) = false ∧
    jsParseInt ['7'] = some 7 ∧
    ArticlePreviewsV2.cursorOk (some ['7']) = true := by
  have h5 := (cursor_validation_per_endpoint ['-', '5']).2.1 (-5) (by decide)
  have h7 := (cursor_validation_per_endpoint ['7']).2.1 7 (by decide)
  refine ⟨by decide, ?_, by decide, h7.2.mpr (by decide)⟩
  have := h5.2
  cases hv : ArticlePreviewsV2.cursorOk (some ['-', '5']) with
  | false => rfl
  | true => exact absurd (this.mp hv) (by decide)

/-! ## Translation fallback (C3)

The story-detail handler (part_005) overrides each of headline, summary and
content independently with the JavaScript expression
translation.field or-else base.field, so a null or empty localized field
falls back alone.  The story_line_view_by_id handler instead returns the
localized row's three fields verbatim whenever the row exists, and falls back
to the whole English row only when the localized fetch fails. -/

/-- JavaScript a or-else b on nullable strings: a when a is non-null and
non-empty (truthy), b otherwise. -/
def jsOrElse (a : Option String) (b : Option String) : Option String :=
  match a with
  | some s => if s = "" then b else some s
  | none => b

/-- Base row of cluster_articles selected by part_005 lines 41-47. -/
structure ClusterArticleRow where
  headline : Option String
  summary : Option String
  content : Option String
  image_url : Option String
deriving DecidableEq, Repr

/-- Localized row of cluster_article_int selected by part_005 lines 62-68. -/
structure CATransRow where
  headline : Option String
  summary : Option String
  content : Option String
deriving DecidableEq, Repr

/-- Assembled content bundle (headline, summary, content). -/
structure Bundle where
  headline : Option String
  summary : Option String
  content : Option String
deriving DecidableEq, Repr

/-- Bundle assembly of part_005 lines 56-75: start from the base fields; for a
non-English locale with a translation row, each field is overridden by the
truthy localized value alone. -/
def StoryDetail.bundle (article : ClusterArticleRow) (languageCode : String)
    (translation : Option CATransRow) : Bundle :=
  if languageCode = "en" then
    ⟨article.headline, article.summary, article.content⟩
  else
    match translation with
    | some t =>
      ⟨jsOrElse t.headline article.headline,
        jsOrElse t.summary article.summary,
        jsOrElse t.content article.content⟩
    | none => ⟨article.headline, article.summary, article.content⟩

/-- Per-field fallback as the specification words it: the localized value when
it is non-null and non-empty, the base-locale value otherwise. -/
def specFieldFallback (localized base : Option String) : Option String :=
  if localized ≠ none ∧ localized ≠ some "" then localized else base

/-- Base row of story_line_view selected by story_line_view_by_id lines
70-74. -/
structure SLVRow where
  headline : Option String
  introduction : Option String
  content : Option String
deriving DecidableEq, Repr

/-- Response shape of story_line_view_by_id. -/
structure SLVResponse where
  headline : Option String
  introduction : Option String
  content : Option String
  language : String
deriving DecidableEq, Repr

/-- Response assembly of story_line_view_by_id lines 68-137: English reads the
base row; a non-English locale returns the localized row's fields verbatim
when the localized fetch succeeds, and the whole English row (language set to
en) when it fails, i.e. when no localized row exists. -/
def StoryLineView.respond (languageCode : String) (base : SLVRow)
    (intRow : Option SLVRow) : SLVResponse :=
  if languageCode = "en" then
    ⟨base.headline, base.introduction, base.content, "en"⟩
  else
    match intRow with
    | some iv => ⟨iv.headline, iv.introduction, iv.content, languageCode⟩
    | none => ⟨base.headline, base.introduction, base.content, "en"⟩

/-- C3 counterexample: for language de, a story_line_view_int row with only a
headline (introduction and content null) yields a response whose introduction
and content are null, not the base-locale values, contradicting per-field
fallback. -/
theorem storyLineView_fallback_is_per_row :
    StoryLineView.respond "de" ⟨some "EH", some "EI", some "EC"⟩
        (some ⟨some "DH", none, none⟩)
      = ⟨some "DH", none, none, "de"⟩ ∧
    (StoryLineView.respond "de" ⟨some "EH", some "EI", some "EC"⟩
        (some ⟨some "DH", none, none⟩)).introduction
      ≠ some "EI" := by
  refine ⟨rfl, by simp [StoryLineView.respond]⟩

/-- C3 (amended): the story-detail endpoint (part_005) applies per-field
fallback exactly as specified — each bundle field is independently the
localized value when non-null and non-empty and the base value otherwise, and
a translation row with only a headline keeps the base summary and content —
while story_line_view_by_id substitutes base-locale values only when the
whole localized row is absent. -/
theorem storyDetail_per_field_fallback (article : ClusterArticleRow)
    (t : CATransRow) (lang : String) (hl : lang ≠ "en") :
    (StoryDetail.bundle article lang (some t)
        = ⟨specFieldFallback t.headline article.headline,
            specFieldFallback t.summary article.summary,
            specFieldFallback t.content article.content⟩) ∧
    (StoryDetail.bundle article lang (some ⟨t.headline, none, none⟩)
        = ⟨specFieldFallback t.headline article.headline,
            article.summary, article.content⟩) ∧
    (StoryDetail.bundle article lang none
        = ⟨article.headline, article.summary, article.content⟩) ∧
    (∀ base intRow, StoryLineView.respond lang base (some intRow)
        = ⟨intRow.headline, intRow.introduction, intRow.content, lang⟩) ∧
    (∀ base, StoryLineView.respond lang base none
        = ⟨base.headline, base.introduction, base.content, "en"⟩) := by
  have hfield : ∀ a b, jsOrElse a b = specFieldFallback a b := by
    intro a b
    cases a with
    | none => simp [jsOrElse, specFieldFallback]
    | some s =>
      by_cases hs : s = ""
      · simp [jsOrElse, specFieldFallback, hs]
      · simp [jsOrElse, specFieldFallback, hs]
  refine ⟨?_, ?_, ?_, ?_, ?_⟩
  · simp [StoryDetail.bundle, if_neg hl, hfield]
  · simp only [StoryDetail.bundle, if_neg hl, hfield]
    simp [jsOrElse, specFieldFallback]
  · simp [StoryDetail.bundle, if_neg hl]
  · intro base intRow; simp [StoryLineView.respond, if_neg hl]
  · intro base; simp [StoryLineView.respond, if_neg hl]

/-- Concrete instance of the C3 per-field fallback at language de with a
translation row carrying only a headline. -/
theorem storyDetail_per_field_fallback_witness :
    StoryDetail.bundle ⟨some "EH", some "ES", some "EC", none⟩ "de"
        (some ⟨some "DH", none, none⟩)
      = ⟨specFieldFallback (some "DH") (some "EH"), some "ES", some "EC"⟩ :=
  (storyDetail_per_field_fallback ⟨some "EH", some "ES", some "EC", none⟩
    ⟨some "DH", none, none⟩ "de" (by decide)).2.1

/-! ## Reference resolution batching (C4)

The ClusterStories handler loops over the fetched stories and issues one
SourceArticles fetch per story with a non-empty source_article_ids array
(part_000 lines 183-228).  The cluster_infos handler instead collects the
distinct source-article ids of the whole page into a JavaScript Set and
issues a single IN fetch over them (second document of
story_line_view_by_id/index.ts, lines 282-317). -/

/-- A ClusterStories row together with its foreign-key array. -/
structure StoryRow where
  id : Nat
  source_article_ids : List Nat
deriving DecidableEq, Repr

/-- The list of secondary SourceArticles fetches the ClusterStories loop
issues for a page: one IN fetch per story whose source_article_ids is
non-empty, in page order. -/
def ClusterStories.secondaryFetches (stories : List StoryRow) : List (List Nat) :=
  (stories.filter (fun s => !s.source_article_ids.isEmpty)).map
    (fun s => s.source_article_ids)

/-- A cluster_articles row of the cluster_infos handler. -/
structure CARow where
  id : Nat
  source_article_ids : List Nat
deriving DecidableEq, Repr

/-- First-occurrence deduplication, the order a JavaScript Set built from a
spread array iterates in. -/
def jsSetDedup : List Nat → List Nat
  | [] => []
  | x :: xs => x :: jsSetDedup (xs.filter (fun y => y ≠ x))
termination_by l => l.length
decreasing_by
  simp only [List.length_cons]
  exact Nat.lt_succ_of_le (List.length_filter_le _ _)

/-- The distinct source-article ids of a page, from the spread of the new Set
over the flattened source_article_ids arrays (line 283-285). -/
def ClusterInfos.allSourceArticleIds (articles : List CARow) : List Nat :=
  jsSetDedup (articles.flatMap (fun ca => ca.source_article_ids))

/-- The list of secondary SourceArticles fetches cluster_infos issues: a
single IN fetch over the distinct ids when there is at least one, and none
otherwise (line 312). -/
def ClusterInfos.sourceFetches (articles : List CARow) : List (List Nat) :=
  if (ClusterInfos.allSourceArticleIds articles).isEmpty then []
  else [ClusterInfos.allSourceArticleIds articles]

theorem mem_jsSetDedup (l : List Nat) (a : Nat) : a ∈ jsSetDedup l ↔ a ∈ l := by
  induction l using jsSetDedup.induct with
  | case1 => simp [jsSetDedup]
  | case2 x xs ih =>
    rw [jsSetDedup]
    by_cases hax : a = x
    · simp [hax]
    · simp only [List.mem_cons, ih, List.mem_filter]
      constructor
      · rintro (h | ⟨h, _⟩)
        · exact Or.inl h
        · exact Or.inr h
      · rintro (h | h)
        · exact Or.inl h
        · exact Or.inr ⟨h, by simpa using hax⟩

theorem nodup_jsSetDedup (l : List Nat) : (jsSetDedup l).Nodup := by
  induction l using jsSetDedup.induct with
  | case1 => simp [jsSetDedup]
  | case2 x xs ih =>
    rw [jsSetDedup]
    refine List.Nodup.cons ?_ ih
    intro hmem
    rw [mem_jsSetDedup, List.mem_filter] at hmem
    simpa using hmem.2

/-- C4 counterexample: a page of three ClusterStories rows referencing only
the two distinct source-article ids 7 and 8 triggers three secondary fetches,
one per row, not a single batched fetch with the two ids. -/
theorem clusterStories_secondary_fetch_per_row :
    ClusterStories.secondaryFetches [⟨1, [7, 8]⟩, ⟨2, [8, 7]⟩, ⟨3, [7]⟩]
      = [[7, 8], [8, 7], [7]] ∧
    (ClusterStories.secondaryFetches [⟨1, [7, 8]⟩, ⟨2, [8, 7]⟩, ⟨3, [7]⟩]).length = 3 ∧
    jsSetDedup ([⟨1, [7, 8]⟩, ⟨2, [8, 7]⟩, (⟨3, [7]⟩ : StoryRow)].flatMap
      (fun s => s.source_article_ids)) = [7, 8] := by
  refine ⟨rfl, rfl, ?_⟩
  rw [show ([⟨1, [7, 8]⟩, ⟨2, [8, 7]⟩, (⟨3, [7]⟩ : StoryRow)].flatMap
      (fun s => s.source_article_ids)) = [7, 8, 8, 7, 7] from rfl]
  rw [jsSetDedup]
  rw [show ([8, 8, 7, 7].filter (fun y => y ≠ 7)) = [8, 8] from rfl]
  rw [jsSetDedup]
  rw [show ([8].filter (fun y => y ≠ 8)) = [] from rfl]
  rw [jsSetDedup]

/-- C4 (amended): the cluster_infos handler issues at most one batched
secondary fetch per page; when some row references a source article, exactly
one fetch is issued, over an id list with no duplicates containing precisely
the ids referenced by the page.  The ClusterStories handler issues one fetch
per row with a non-empty reference array instead. -/
theorem clusterInfos_batched_resolution (articles : List CARow)
    (h : articles.flatMap (fun ca => ca.source_article_ids) ≠ []) :
    ClusterInfos.sourceFetches articles = [ClusterInfos.allSourceArticleIds articles] ∧
    (ClusterInfos.sourceFetches articles).length = 1 ∧
    (ClusterInfos.allSourceArticleIds articles).Nodup ∧
    (∀ i, i ∈ ClusterInfos.allSourceArticleIds articles ↔
      ∃ ca ∈ articles, i ∈ ca.source_article_ids) ∧
    (∀ stories : List StoryRow,
      (ClusterStories.secondaryFetches stories).length
        = (stories.filter (fun s => !s.source_article_ids.isEmpty)).length) := by
  have hne : ¬ (ClusterInfos.allSourceArticleIds articles).isEmpty = true := by
    rw [List.isEmpty_iff]
    intro hempty
    rcases List.exists_mem_of_ne_nil _ h with ⟨i, hi⟩
    have : i ∈ ClusterInfos.allSourceArticleIds articles := by
      rw [ClusterInfos.allSourceArticleIds, mem_jsSetDedup]
      exact hi
    rw [hempty] at this
    simp at this
  refine ⟨?_, ?_, nodup_jsSetDedup _, ?_, ?_⟩
  · rw [ClusterInfos.sourceFetches, if_neg hne]
  · rw [ClusterInfos.sourceFetches, if_neg hne]; rfl
  · intro i
    rw [ClusterInfos.allSourceArticleIds, mem_jsSetDedup, List.mem_flatMap]
  · intro stories
    rw [ClusterStories.secondaryFetches, List.length_map]

/-- Concrete instance of the C4 batching invariant: three cluster_infos rows
referencing only the ids 7 and 8 yield exactly one batched fetch over the
deduplicated list. -/
theorem clusterInfos_batched_resolution_witness :
    ([⟨1, [7, 8]⟩, ⟨2, [8, 7]⟩, (⟨3, [7]⟩ : CARow)].flatMap
        (fun ca => ca.source_article_ids) ≠ []) ∧
    ClusterInfos.sourceFetches [⟨1, [7, 8]⟩, ⟨2, [8, 7]⟩, ⟨3, [7]⟩]
      = [ClusterInfos.allSourceArticleIds [⟨1, [7, 8]⟩, ⟨2, [8, 7]⟩, ⟨3, [7]⟩]] ∧
    (ClusterInfos.sourceFetches [⟨1, [7, 8]⟩, ⟨2, [8, 7]⟩, ⟨3, [7]⟩]).length = 1 :=
  ⟨by decide,
    (clusterInfos_batched_resolution [⟨1, [7, 8]⟩, ⟨2, [8, 7]⟩, ⟨3, [7]⟩] (by decide)).1,
    (clusterInfos_batched_resolution [⟨1, [7, 8]⟩, ⟨2, [8, 7]⟩, ⟨3, [7]⟩] (by decide)).2.1⟩

/-! ## Fetch outcomes and single-row lookups (C6, C7)

A PostgREST fetch result is modelled as an Except value carrying the error
object.  A query ending in .single() yields an error with code PGRST116 when
it does not match exactly one row — the repository itself relies on this in
articleDetail (the PGRST116 branch maps to 404) and in the injuries team
lookup. -/

structure PGError where
  code : String
deriving DecidableEq, Repr

/-- PostgREST .single(): exactly one matching row is returned as data; zero
rows (or several) are reported as an error with code PGRST116, never as null
data. -/
def singleFetch {α : Type} (rows : List α) : Except PGError (Option α) :=
  match rows with
  | [r] => .ok (some r)
  | _ => .error ⟨"PGRST116"⟩

/-- PostgREST .maybeSingle(): zero rows yield null data without error. -/
def maybeSingleFetch {α : Type} (rows : List α) : Except PGError (Option α) :=
  match rows with
  | [] => .ok none
  | [r] => .ok (some r)
  | _ => .error ⟨"PGRST116"⟩

/-! ## story_lines handler (third document of part_002) -/

/-- A cluster_articles row selected by the story_lines handler. -/
structure SLArticle where
  id : Nat
  headline : Option String
  image_url : Option String
  cluster_id : Nat
deriving DecidableEq, Repr

/-- A cluster_article_int row selected by the story_lines handler. -/
structure SLIntRow where
  cluster_article_id : Nat
  headline : Option String
deriving DecidableEq, Repr

/-- An assembled story-line entry. -/
structure SLResp where
  headline : Option String
  image_url : Option String
  cluster_id : Nat
deriving DecidableEq, Repr

/-- The English (base-locale) shape of an article, used both for the en
branch and for every fallback. -/
def StoryLines.englishResult (a : SLArticle) : SLResp :=
  ⟨a.headline, a.image_url, a.cluster_id⟩

/-- Lookup in the translation map the handler builds with Map.set per row:
a later row for the same article id overwrites an earlier one. -/
def StoryLines.translationFor (intlRows : List SLIntRow) (aid : Nat) : Option SLIntRow :=
  (intlRows.filter (fun t => t.cluster_article_id = aid)).getLast?

/-- Result assembly of the story_lines handler (part_002 lines 533-619):
English reads the base rows directly; otherwise a failed translation fetch
falls back to English for every article, and a successful one overrides the
headline per article only when a translation with a truthy headline exists. -/
def StoryLines.buildResults (articles : List SLArticle) (languageCode : String)
    (intl : Except PGError (List SLIntRow)) : List SLResp :=
  if languageCode = "en" then articles.map StoryLines.englishResult
  else
    match intl with
    | .error _ => articles.map StoryLines.englishResult
    | .ok intlRows =>
      articles.map (fun a =>
        match StoryLines.translationFor intlRows a.id with
        | some t =>
          match t.headline with
          | some h => if h = "" then StoryLines.englishResult a
                      else ⟨some h, a.image_url, a.cluster_id⟩
          | none => StoryLines.englishResult a
        | none => StoryLines.englishResult a)

/-- The story_lines handler down to HTTP status and data (pagination envelope
omitted): primary fetch errors give 500, empty results give 200 with no
data, and translation resolution never changes the 200 status. -/
def StoryLines.handle (clusters : Except PGError (List Nat)) (languageCode : String)
    (articlesFetch : Except PGError (List SLArticle))
    (intl : Except PGError (List SLIntRow)) : Nat × List SLResp :=
  match clusters with
  | .error _ => (500, [])
  | .ok cids =>
    if cids.isEmpty then (200, [])
    else
      match articlesFetch with
      | .error _ => (500, [])
      | .ok arts =>
        if arts.isEmpty then (200, [])
        else (200, StoryLines.buildResults arts languageCode intl)

/-! ## cluster_summary_by_id handler -/

/-- A cluster_summary row. -/
structure CSummaryRow where
  id : Nat
  headline : String
  content : String
deriving DecidableEq, Repr

/-- A cluster_images row. -/
structure CImageRow where
  image_url : Option String
deriving DecidableEq, Repr

/-- A cluster_summary_int row. -/
structure CSIntRow where
  cluster_summary_id : Nat
  language_code : String
  headline : String
  content : String
deriving DecidableEq, Repr

/-- Response shape of cluster_summary_by_id. -/
structure CSResponse where
  headline : String
  content : String
  headline_de : Option String
  content_de : Option String
  image_url : Option String
deriving DecidableEq, Repr

/-- The image_url field of the response (line 125), the truthy image row
value or null: the image row is null when the (non-critical) image fetch
errored. -/
def ClusterSummary.imageUrlOf (imageFetch : Except PGError (Option CImageRow)) :
    Option String :=
  jsOrElse ((match imageFetch with
    | .error _ => none
    | .ok d => d).bind (fun i => i.image_url)) none

/-- The cluster_summary_int query of lines 109-114: rows filtered by the
summary id and by language_code de, consumed with maybeSingle. -/
def ClusterSummary.deTranslationRows (rows : List CSIntRow) (sid : Nat) : List CSIntRow :=
  rows.filter (fun r => decide (r.cluster_summary_id = sid) && decide (r.language_code = "de"))

/-- The cluster_summary_by_id handler (lines 64-138): a summary fetch error is
fatal (500); the unreachable null-data branch returns 404; image and
translation fetch errors are non-critical and the handler continues with null
data; the German fields are added only when a translation row was returned. -/
def ClusterSummary.handle (summaryFetch : Except PGError (Option CSummaryRow))
    (imageFetch : Except PGError (Option CImageRow))
    (translationFetch : Except PGError (Option CSIntRow)) : Nat × Option CSResponse :=
  match summaryFetch with
  | .error _ => (500, none)
  | .ok none => (404, none)
  | .ok (some summaryData) =>
    let translationData : Option CSIntRow :=
      match translationFetch with
      | .error _ => none
      | .ok d => d
    match translationData with
    | some td =>
      (200, some ⟨summaryData.headline, summaryData.content, some td.headline,
        some td.content, ClusterSummary.imageUrlOf imageFetch⟩)
    | none =>
      (200, some ⟨summaryData.headline, summaryData.content, none, none,
        ClusterSummary.imageUrlOf imageFetch⟩)

/-! ## articleDetail and team_view_by_id status mapping (C7) -/

/-- A NewsArticles row (only the identity matters for the status mapping). -/
structure NARow where
  id : Nat
deriving DecidableEq, Repr

/-- Status mapping of the articleDetail handler (lines 104-157): PGRST116
from the single-row fetch is answered with 404, the auth error code PGRST301
reaches the catch block as 401, anything else as 500; null data without an
error is also 404. -/
def ArticleDetail.handle (fetch : Except PGError (Option NARow)) : Nat :=
  match fetch with
  | .error e =>
    if e.code = "PGRST116" then 404
    else if e.code = "PGRST301" then 401
    else 500
  | .ok none => 404
  | .ok (some _) => 200

/-- A cluster_team_view row. -/
structure TVRow where
  id : Nat
  headline : String
  content : String
  team : String
deriving DecidableEq, Repr

/-- Status mapping of the team_view_by_id primary fetch (lines 67-92): any
error from the single-row fetch, the not-found error PGRST116 included, is
answered with 500; the unreachable null-data branch returns 404. -/
def TeamView.handleStatus (teamViewFetch : Except PGError (Option TVRow)) : Nat :=
  match teamViewFetch with
  | .error _ => 500
  | .ok none => 404
  | .ok (some _) => 200

/-- C6: whenever the primary fetch succeeded, a failing secondary fetch never
turns the request into a 500: the story_lines handler answers a translation
fetch error with 200 and the base-locale (English) entry for every article,
and the cluster_summary_by_id handler answers translation or image fetch
errors with 200, the base headline and content, and absent German fields. -/
theorem secondary_fetch_failure_degrades (cids : List Nat) (arts : List SLArticle)
    (lang : String) (e e1 e2 : PGError) (s : CSummaryRow)
    (imageFetch : Except PGError (Option CImageRow))
    (translationFetch : Except PGError (Option CSIntRow))
    (hlang : lang ≠ "en") (hc : cids ≠ []) (ha : arts ≠ []) :
    StoryLines.handle (.ok cids) lang (.ok arts) (.error e)
      = (200, arts.map StoryLines.englishResult) ∧
    ClusterSummary.handle (.ok (some s)) imageFetch (.error e2)
      = (200, some ⟨s.headline, s.content, none, none,
          ClusterSummary.imageUrlOf imageFetch⟩) ∧
    (ClusterSummary.handle (.ok (some s)) (.error e1) translationFetch).1 = 200 := by
  have hcE : cids.isEmpty = false := by
    cases cids with
    | nil => exact absurd rfl hc
    | cons x xs => rfl
  have haE : arts.isEmpty = false := by
    cases arts with
    | nil => exact absurd rfl ha
    | cons x xs => rfl
  refine ⟨?_, rfl, ?_⟩
  · simp only [StoryLines.handle, hcE, haE, Bool.false_eq_true, if_false,
      StoryLines.buildResults, if_neg hlang]
  · unfold ClusterSummary.handle
    cases htr : (match translationFetch with
      | .error _ => (none : Option CSIntRow)
      | .ok d => d) <;> simp [htr]

/-- Concrete instance of the C6 degradation with one cherry-picked cluster,
one article, language de and failing secondary fetches. -/
theorem secondary_fetch_failure_degrades_witness :
    StoryLines.handle (.ok [1]) "de" (.ok [⟨1, some "H", none, 2⟩]) (.error ⟨"X"⟩)
      = (200, [⟨1, some "H", none, 2⟩].map StoryLines.englishResult) ∧
    ClusterSummary.handle (.ok (some ⟨1, "h", "c"⟩)) (.ok none) (.error ⟨"X"⟩)
      = (200, some ⟨"h", "c", none, none,
          ClusterSummary.imageUrlOf (.ok none)⟩) ∧
    (ClusterSummary.handle (.ok (some ⟨1, "h", "c"⟩)) (.error ⟨"X"⟩) (.ok none)).1 = 200 :=
  secondary_fetch_failure_degrades [1] [⟨1, some "H", none, 2⟩] "de" ⟨"X"⟩ ⟨"X"⟩ ⟨"X"⟩
    ⟨1, "h", "c"⟩ (.ok none) (.ok none) (by decide) (by decide) (by decide)

/-- C7: resolving a cluster id with no cluster_summary row makes the
.single() fetch report PGRST116, which the cluster_summary_by_id handler
answers with 500 (its not-found 404 branch is unreachable), while the
articleDetail handler answers the same outcome with 404 as the claim states;
team_view_by_id shares the 500 behaviour. -/
theorem clusterSummary_missing_row_returns_500 :
    singleFetch ([] : List CSummaryRow) = .error ⟨"PGRST116"⟩ ∧
    (ClusterSummary.handle (singleFetch ([] : List CSummaryRow)) (.ok none) (.ok none)).1
      = 500 ∧
    (ClusterSummary.handle (.ok none) (.ok none) (.ok none)).1 = 404 ∧
    ArticleDetail.handle (.error ⟨"PGRST116"⟩) = 404 ∧
    TeamView.handleStatus (singleFetch ([] : List TVRow)) = 500 := by
  refine ⟨rfl, rfl, rfl, by decide, rfl⟩

/-! ## team_view_by_id translation loop (C10) -/

/-- A cluster_team_view_int row. -/
structure TVTransRow where
  language_code : String
  headline : String
  content : String
deriving DecidableEq, Repr

/-- Response shape of team_view_by_id. -/
structure TVResponse where
  headline : String
  content : String
  team : String
  language : String
  headline_de : Option String
  content_de : Option String
deriving DecidableEq, Repr

/-- The base response of lines 95-100: English data, no German fields. -/
def TeamView.baseResponse (t : TVRow) : TVResponse :=
  ⟨t.headline, t.content, t.team, "en", none, none⟩

/-- One iteration of the translation forEach of lines 112-128: only a row
with language_code de touches the response, setting the German fields and the
language marker. -/
def TeamView.applyTranslation (resp : TVResponse) (t : TVTransRow) : TVResponse :=
  if t.language_code = "de" then
    ⟨resp.headline, resp.content, resp.team, "de", some t.headline, some t.content⟩
  else resp

/-- The team_view_by_id enrichment: a failing translation fetch keeps the
English response (line 109-111), otherwise every fetched translation row is
folded over the response. -/
def TeamView.respond (t : TVRow) (translations : Except PGError (List TVTransRow)) :
    TVResponse :=
  match translations with
  | .error _ => TeamView.baseResponse t
  | .ok ts => ts.foldl TeamView.applyTranslation (TeamView.baseResponse t)

theorem TeamView.applyTranslation_preserves (resp : TVResponse) (x : TVTransRow) :
    (TeamView.applyTranslation resp x).headline = resp.headline ∧
    (TeamView.applyTranslation resp x).content = resp.content ∧
    (TeamView.applyTranslation resp x).team = resp.team := by
  unfold TeamView.applyTranslation
  by_cases hd : x.language_code = "de" <;> simp [hd]

theorem TeamView.foldl_preserves (ts : List TVTransRow) :
    ∀ resp : TVResponse,
      (ts.foldl TeamView.applyTranslation resp).headline = resp.headline ∧
      (ts.foldl TeamView.applyTranslation resp).content = resp.content ∧
      (ts.foldl TeamView.applyTranslation resp).team = resp.team := by
  induction ts with
  | nil => intro resp; exact ⟨rfl, rfl, rfl⟩
  | cons x xs ih =>
    intro resp
    simp only [List.foldl_cons]
    obtain ⟨h1, h2, h3⟩ := ih (TeamView.applyTranslation resp x)
    obtain ⟨g1, g2, g3⟩ := TeamView.applyTranslation_preserves resp x
    exact ⟨h1.trans g1, h2.trans g2, h3.trans g3⟩

theorem TeamView.foldl_no_de (ts : List TVTransRow)
    (h : ∀ x ∈ ts, x.language_code ≠ "de") :
    ∀ resp : TVResponse, ts.foldl TeamView.applyTranslation resp = resp := by
  induction ts with
  | nil => intro resp; rfl
  | cons x xs ih =>
    intro resp
    have hx : x.language_code ≠ "de" := h x (List.mem_cons_self x xs)
    have hxs : ∀ y ∈ xs, y.language_code ≠ "de" :=
      fun y hy => h y (List.mem_cons_of_mem x hy)
    simp only [List.foldl_cons, TeamView.applyTranslation, if_neg hx]
    exact ih hxs resp

theorem TeamView.foldl_de_fields (ts : List TVTransRow) :
    ∀ resp : TVResponse,
      ((ts.foldl TeamView.applyTranslation resp).headline_de = resp.headline_de ∧
        (ts.foldl TeamView.applyTranslation resp).content_de = resp.content_de) ∨
      (∃ x ∈ ts, x.language_code = "de" ∧
        (ts.foldl TeamView.applyTranslation resp).headline_de = some x.headline ∧
        (ts.foldl TeamView.applyTranslation resp).content_de = some x.content) := by
  induction ts with
  | nil => intro resp; exact Or.inl ⟨rfl, rfl⟩
  | cons x xs ih =>
    intro resp
    simp only [List.foldl_cons]
    rcases ih (TeamView.applyTranslation resp x) with ⟨h1, h2⟩ | ⟨y, hy, hyde, hy1, hy2⟩
    · by_cases hd : x.language_code = "de"
      · refine Or.inr ⟨x, List.mem_cons_self x xs, hd, ?_, ?_⟩
        · rw [h1]; simp [TeamView.applyTranslation, hd]
        · rw [h2]; simp [TeamView.applyTranslation, hd]
      · have hresp : TeamView.applyTranslation resp x = resp := by
          rw [TeamView.applyTranslation, if_neg hd]
        rw [hresp] at h1 h2
        rw [hresp]
        exact Or.inl ⟨h1, h2⟩
    · exact Or.inr ⟨y, List.mem_cons_of_mem x hy, hyde, hy1, hy2⟩

/-- C10: in team_view_by_id and cluster_summary_by_id the translation
enrichment is fixed to the locale de.  The base English headline, content and
team are always returned unchanged; when no fetched row has language_code de
the response equals the plain base response (German fields absent); whenever
a German field is present its value comes from a fetched de row; and the
cluster_summary_int query only ever returns rows with language_code de, with
no German fields added when no such row exists. -/
theorem de_only_translation_enrichment :
    (∀ (t : TVRow) (ts : List TVTransRow),
      (TeamView.respond t (.ok ts)).headline = t.headline ∧
      (TeamView.respond t (.ok ts)).content = t.content ∧
      (TeamView.respond t (.ok ts)).team = t.team) ∧
    (∀ (t : TVRow) (ts : List TVTransRow), (∀ x ∈ ts, x.language_code ≠ "de") →
      TeamView.respond t (.ok ts) = TeamView.baseResponse t) ∧
    (∀ (t : TVRow) (ts : List TVTransRow),
      (TeamView.respond t (.ok ts)).headline_de ≠ none →
      ∃ x ∈ ts, x.language_code = "de" ∧
        (TeamView.respond t (.ok ts)).headline_de = some x.headline ∧
        (TeamView.respond t (.ok ts)).content_de = some x.content) ∧
    (∀ (rows : List CSIntRow) (sid : Nat) (r : CSIntRow),
      r ∈ ClusterSummary.deTranslationRows rows sid → r.language_code = "de") ∧
    (∀ (rows : List CSIntRow) (sid : Nat),
      (∀ r ∈ rows, ¬ (r.cluster_summary_id = sid ∧ r.language_code = "de")) →
      ClusterSummary.deTranslationRows rows sid = []) ∧
    (∀ (s : CSummaryRow) (imageFetch : Except PGError (Option CImageRow)),
      (ClusterSummary.handle (.ok (some s)) imageFetch (.ok none)).2
        = some ⟨s.headline, s.content, none, none,
            ClusterSummary.imageUrlOf imageFetch⟩) := by
  refine ⟨?_, ?_, ?_, ?_, ?_, ?_⟩
  · intro t ts
    exact TeamView.foldl_preserves ts (TeamView.baseResponse t)
  · intro t ts h
    exact TeamView.foldl_no_de ts h (TeamView.baseResponse t)
  · intro t ts hne
    rcases TeamView.foldl_de_fields ts (TeamView.baseResponse t) with ⟨h1, h2⟩ | hsome
    · exact absurd h1 (by simpa [TeamView.respond, TeamView.baseResponse] using hne)
    · exact hsome
  · intro rows sid r hr
    rw [ClusterSummary.deTranslationRows, List.mem_filter] at hr
    have := hr.2
    simp only [Bool.and_eq_true, decide_eq_true_eq] at this
    exact this.2
  · intro rows sid h
    rw [ClusterSummary.deTranslationRows, List.filter_eq_nil_iff]
    intro r hr
    simp only [Bool.and_eq_true, decide_eq_true_eq]
    exact fun hc => h r hr ⟨hc.1, hc.2⟩
  · intro s imageFetch
    rfl

/-- Concrete instance of the C10 enrichment: a single French translation row
leaves the team view response at its base English shape, and no
cluster_summary_int row qualifies for the German lookup. -/
theorem de_only_translation_enrichment_witness :
    TeamView.respond ⟨1, "H", "C", "KC"⟩ (.ok [⟨"fr", "FH", "FC"⟩])
      = TeamView.baseResponse ⟨1, "H", "C", "KC"⟩ ∧
    ClusterSummary.deTranslationRows [⟨1, "fr", "FH", "FC"⟩] 1 = [] :=
  ⟨(de_only_translation_enrichment).2.1 ⟨1, "H", "C", "KC"⟩ [⟨"fr", "FH", "FC"⟩]
      (by decide),
    (de_only_translation_enrichment).2.2.2.2.1 [⟨1, "fr", "FH", "FC"⟩] 1 (by decide)⟩

/-- Concrete instance of the C8 limit validation: 7 is accepted everywhere,
and teamArticles accepts 1000 while ClusterStories does not. -/
theorem limit_validation_per_endpoint_witness :
    TeamArticles.limitOk (some 7) = true ∧
    TeamArticles.limitOk (some 1000) = true ∧
    ClusterStories.limitOk (some 1000) = false := by
  refine ⟨(limit_validation_per_endpoint 7).1.mpr (by decide),
    (limit_validation_per_endpoint 1000).1.mpr (by decide), ?_⟩
  have h := (limit_validation_per_endpoint 1000).2.1
  cases hv : ClusterStories.limitOk (some 1000) with
  | false => rfl
  | true => exact absurd (h.mp hv) (by decide)
